import Mathlib

/-!
Verification of `build_linux/clang-tidy/filter_clang_tidy.py`.

The script partitions a CMake-generated compilation database
(`compile_commands.json`) into included and excluded entries according to a
JSON configuration of excluded directory-name sequences, rewrites plain
include flags `-I<path>` of excluded directories into system include flags
`-isystem <path>` inside the commands of included entries, and writes the two
partitions to two JSON files.

Strings are modelled as lists of characters (`Str`); the Python standard
library path helpers used by the script (`os.path.dirname`, `os.path.relpath`,
`os.path.join` and `str.replace`, all on POSIX with separator `/`) are
embedded as executable Lean functions.  File existence is modelled by
`Option` inputs, and process termination (`sys.exit(0)` / `raise SystemExit`)
by an `Except` result.
-/

namespace ClangTidyFilter

/-- Strings are modelled as lists of characters. -/
abbrev Str := List Char

/-- A string literal as a `Str`. -/
def str (s : String) : Str := s.data

/-- The platform path separator, `os.path.sep` on Linux. -/
def sep : Char := '/'

/-- One record of the compilation database.  The JSON object's `directory`,
`command` and `file` keys are explicit; any further keys are kept in `extra`
to model that entries are opaque records passed through untouched. -/
structure Entry where
  directory : Str
  command : Str
  file : Str
  extra : List (Str × Str)
deriving DecidableEq

/-- `s.split(sep)` followed by dropping empty and `.` components and resolving
`..` components: the component list of `os.path.abspath` for the absolute
POSIX paths the script feeds to `os.path.relpath` (CPython `posixpath.normpath`
restricted to absolute inputs, followed by relpath's split-and-drop-empties). -/
def absComps (p : Str) : List Str :=
  (List.splitOn sep p).foldl
    (fun acc comp =>
      if comp = [] ∨ comp = ['.'] then acc
      else if comp = ['.', '.'] then acc.dropLast
      else acc ++ [comp]) []

/-- Length of the common prefix of two component lists
(`os.path.commonprefix` applied to a pair of lists). -/
def commonPrefixLen : List Str → List Str → Nat
  | x :: xs, y :: ys => if x = y then commonPrefixLen xs ys + 1 else 0
  | _, _ => 0

/-- CPython `posixpath.relpath(path, start)` for absolute `path` and `start`. -/
def relpath (path start : Str) : Str :=
  let path_list := absComps path
  let start_list := absComps start
  let i := commonPrefixLen start_list path_list
  let rel_list :=
    List.replicate (start_list.length - i) ['.', '.'] ++ path_list.drop i
  if rel_list = [] then ['.'] else List.intercalate [sep] rel_list

/-- CPython `posixpath.dirname(p)`: everything up to the last separator,
with trailing separators stripped unless the head is all separators. -/
def dirname (p : Str) : Str :=
  let head := (p.reverse.dropWhile (fun c => c ≠ sep)).reverse
  if head ≠ [] ∧ ¬ head.all (fun c => c = sep) then
    (head.reverse.dropWhile (fun c => c = sep)).reverse
  else head

/-- CPython `posixpath.join(a, b)` for a single extra component. -/
def pjoin (a b : Str) : Str :=
  if b.head? = some sep then b
  else if a = [] ∨ a.getLast? = some sep then a ++ b
  else a ++ sep :: b

/-- CPython `str.replace(pat, repl)` for a non-empty pattern, with explicit
fuel so that the definition is structurally recursive: scan left to right,
replacing non-overlapping occurrences.  The script only ever replaces
patterns of the shape `-I<path>`, which are non-empty. -/
def strReplaceFuel : Nat → Str → Str → Str → Str
  | 0, s, _, _ => s
  | _ + 1, [], _, _ => []
  | fuel + 1, c :: cs, pat, repl =>
    if pat ≠ [] ∧ pat <+: (c :: cs) then
      repl ++ strReplaceFuel fuel (cs.drop (pat.length - 1)) pat repl
    else
      c :: strReplaceFuel fuel cs pat repl

/-- CPython `str.replace(pat, repl)` for a non-empty pattern. -/
def strReplace (s pat repl : Str) : Str :=
  strReplaceFuel s.length s pat repl

/-- `read_config`, lines 101–103: each raw exclusion (a list of directory
names) is joined with the path separator and prefixed with one leading
separator. -/
def mkExcludes (excludes_raw : List (List Str)) : List Str :=
  excludes_raw.map (fun exclude_raw => sep :: List.intercalate [sep] exclude_raw)

/-- `filter_sources`, line 140: the entry's match string is one leading
separator plus the path of the entry's file's directory relative to the
script's working directory `path_relative`. -/
def pathStr (path_relative : Str) (command : Entry) : Str :=
  sep :: relpath (dirname command.file) path_relative

/-- `filter_sources`, lines 141–145: scan the exclusion strings in order and
stop at the first one contained in the match string (`include_folder` is set
to false and the loop breaks). -/
def anyExcludeMatch : List Str → Str → Bool
  | [], _ => false
  | exclude :: rest, path_str =>
    if exclude <:+: path_str then true else anyExcludeMatch rest path_str

/-- `filter_sources`, lines 135–154: split the database into the included and
the excluded entries, appending each entry in input order to exactly one of
the two output lists. -/
def filter_sources (path_relative : Str) (excludes : List Str) :
    List Entry → List Entry × List Entry
  | [] => ([], [])
  | command :: rest =>
    let r := filter_sources path_relative excludes rest
    if anyExcludeMatch excludes (pathStr path_relative command) then
      (r.1, command :: r.2)
    else
      (command :: r.1, r.2)

/-- `filter_headers`, lines 165–166: strip the leading separators from every
exclusion string (`str.lstrip` removes the whole leading run). -/
def stripExcludes (excludes : List Str) : List Str :=
  excludes.map (fun value => value.dropWhile (fun c => c = sep))

/-- `filter_headers`, lines 168–175, inner loops for one command: for each
(already stripped) exclusion string in order, build the absolute excluded
path and replace the plain include flag `-I<path>` with the system include
flag `-isystem <path>` wherever the former occurs in the command string. -/
def rewriteCommand (path_relative : Str) : List Str → Str → Str
  | [], cmd => cmd
  | exclude :: rest, cmd =>
    rewriteCommand path_relative rest
      (let exclude_path := pjoin path_relative exclude
       let header_include := str "-I" ++ exclude_path
       let header_system := str "-isystem " ++ exclude_path
       if header_include <:+: cmd then strReplace cmd header_include header_system
       else cmd)

/-- The compile-time flag of line 23. -/
def REPLACE_WITH_SYSTEM_HEADERS : Bool := true

/-- `filter_headers`, lines 156–177: when enabled, rewrite the command of
every included entry; all other attributes of the entries are untouched. -/
def filter_headers (path_relative : Str) (excludes : List Str)
    (commands_inc : List Entry) : List Entry :=
  if REPLACE_WITH_SYSTEM_HEADERS then
    commands_inc.map (fun command =>
      { command with
        command := rewriteCommand path_relative (stripExcludes excludes)
          command.command })
  else commands_inc

/-- The filtering pipeline after the two loaders: `filter_sources` followed by
`filter_headers` (which only touches the included partition). -/
def runFilter (path_relative : Str) (excludes : List Str)
    (commands : List Entry) : List Entry × List Entry :=
  let r := filter_sources path_relative excludes commands
  (filter_headers path_relative excludes r.1, r.2)

/-- How a run of the script can terminate early: `sys.exit(0)` after printing
a message (lenient mode), or `raise SystemExit(msg)` which prints the message
and exits with status 1 (strict mode). -/
inductive ExitKind where
  | exitZero (msg : Str)
  | sysExitMsg (msg : Str)
deriving DecidableEq

/-- The process exit status of each early termination. -/
def ExitKind.status : ExitKind → Nat
  | .exitZero _ => 0
  | .sysExitMsg _ => 1

/-- The compile-time flag of line 22 selecting the lenient policy. -/
def TERMINATE_OK : Bool := false

/-- `read_config`, lines 79–103.  The configuration file's presence is
modelled by the `Option`: `none` means the file does not exist. -/
def read_config (terminate_ok : Bool) (path_config : Str)
    (contents : Option (List (List Str))) : Except ExitKind (List Str) :=
  match contents with
  | none =>
    if terminate_ok then
      Except.error (ExitKind.exitZero (str "ERROR - Directory exclusion configuration is missing, skipping further processing"))
    else
      Except.error (ExitKind.sysExitMsg
        (str "** FATAL - file to list excluded directories is missing:\n" ++ path_config))
  | some excludes_raw => Except.ok (mkExcludes excludes_raw)

/-- `read_commands`, lines 109–124, with the database file's presence
modelled by the `Option`. -/
def read_commands (terminate_ok : Bool) (path_build : Str)
    (contents : Option (List Entry)) : Except ExitKind (List Entry) :=
  let path_database := pjoin path_build (str "compile_commands.json")
  match contents with
  | none =>
    if terminate_ok then
      Except.error (ExitKind.exitZero (str "ERROR - CMake-generated file \"compile_commands.json\" is missing, skipping further processing"))
    else
      Except.error (ExitKind.sysExitMsg
        (str "** FATAL - file to list compile commands is missing:\n" ++ path_database))
  | some commands => Except.ok commands

/-- `save_commands`, lines 179–192: the two files written, as (path, entries)
pairs, included first. -/
def save_commands (path_build : Str) (commands_inc commands_exc : List Entry) :
    List (Str × List Entry) :=
  [(pjoin path_build (str "compile_commands_inc.json"), commands_inc),
   (pjoin path_build (str "compile_commands_exc.json"), commands_exc)]

/-- `main`, lines 194–200, after argument resolution: run the two loaders and
the two filters, and return the files written.  An `Except.error` result means
the process terminated inside a loader, before any output file was written. -/
def run_tool (terminate_ok : Bool) (path_relative path_build path_config : Str)
    (config_file : Option (List (List Str))) (database_file : Option (List Entry)) :
    Except ExitKind (List (Str × List Entry)) := do
  let excludes ← read_config terminate_ok path_config config_file
  let commands ← read_commands terminate_ok path_build database_file
  let r := filter_sources path_relative excludes commands
  pure (save_commands path_build
    (filter_headers path_relative excludes r.1) r.2)

/-- The exhaustive variant of the partitioner test described by the spec's
open question: every exclusion string is tested (no short-circuit on the
first match) and only the boolean any-fragment-matches outcome is kept. -/
def anyExcludeMatchExhaustive (excludes : List Str) (path_str : Str) : Bool :=
  excludes.foldl (fun acc exclude => acc || decide (exclude <:+: path_str)) false

/-- The partitioner using the exhaustive test instead of the short-circuiting
loop, for the refinement comparison. -/
def filter_sources_exhaustive (path_relative : Str) (excludes : List Str) :
    List Entry → List Entry × List Entry
  | [] => ([], [])
  | command :: rest =>
    let r := filter_sources_exhaustive path_relative excludes rest
    if anyExcludeMatchExhaustive excludes (pathStr path_relative command) then
      (r.1, command :: r.2)
    else
      (command :: r.1, r.2)

/-- The short-circuiting loop returns true exactly when some exclusion string
is a substring of the match string. -/
theorem anyExcludeMatch_iff (L : List Str) (p : Str) :
    anyExcludeMatch L p = true ↔ ∃ exclude ∈ L, exclude <:+: p := by
  induction L with
  | nil => simp [anyExcludeMatch]
  | cons x xs ih =>
    by_cases h : x <:+: p
    · simp [anyExcludeMatch, h]
    · simp [anyExcludeMatch, h, ih]

/-- `filter_sources` is the pair of the two stable filters of the input. -/
theorem filter_sources_eq (pr : Str) (excl : List Str) (l : List Entry) :
    filter_sources pr excl l =
      (l.filter (fun c => ! anyExcludeMatch excl (pathStr pr c)),
       l.filter (fun c => anyExcludeMatch excl (pathStr pr c))) := by
  induction l with
  | nil => rfl
  | cons c cs ih =>
    simp only [filter_sources, ih, List.filter_cons]
    cases h : anyExcludeMatch excl (pathStr pr c) <;> simp [h]

/-- Replacing a pattern that does not occur is the identity. -/
theorem strReplaceFuel_of_not_infix (pat repl : Str) :
    ∀ (fuel : Nat) (s : Str), ¬ pat <:+: s → strReplaceFuel fuel s pat repl = s := by
  intro fuel
  induction fuel with
  | zero => intro s _; rfl
  | succ n ih =>
    intro s hs
    match s with
    | [] => rfl
    | c :: cs =>
      have hc : ¬ (pat ≠ [] ∧ pat <+: (c :: cs)) := fun hh => hs hh.2.isInfix
      have hcs : ¬ pat <:+: cs := fun hinf =>
        hs (List.infix_cons_iff.mpr (Or.inr hinf))
      simp only [strReplaceFuel, if_neg hc, ih cs hcs]

/-- Replacing a pattern that does not occur is the identity. -/
theorem strReplace_of_not_infix (s pat repl : Str) (h : ¬ pat <:+: s) :
    strReplace s pat repl = s :=
  strReplaceFuel_of_not_infix pat repl s.length s h

/-- If the non-empty pattern occurs, the replacement text occurs in the
result of the substitution. -/
theorem strReplaceFuel_contains (pat repl : Str) (hpat : pat ≠ []) :
    ∀ (fuel : Nat) (s : Str), s.length ≤ fuel → pat <:+: s →
      repl <:+: strReplaceFuel fuel s pat repl := by
  intro fuel
  induction fuel with
  | zero =>
    intro s hlen hinf
    have hnil : s = [] := List.eq_nil_of_length_eq_zero (Nat.le_zero.mp hlen)
    subst hnil
    exact absurd (List.eq_nil_of_length_eq_zero (Nat.le_zero.mp hinf.length_le)) hpat
  | succ n ih =>
    intro s hlen hinf
    match s with
    | [] =>
      exact absurd (List.eq_nil_of_length_eq_zero (Nat.le_zero.mp hinf.length_le)) hpat
    | c :: cs =>
      by_cases hc : pat <+: (c :: cs)
      · simp only [strReplaceFuel, if_pos (And.intro hpat hc)]
        exact (List.prefix_append repl _).isInfix
      · have hcs : pat <:+: cs := (List.infix_cons_iff.mp hinf).resolve_left hc
        have hlen' : cs.length ≤ n := Nat.succ_le_succ_iff.mp hlen
        have hcond : ¬ (pat ≠ [] ∧ pat <+: (c :: cs)) := fun hh => hc hh.2
        simp only [strReplaceFuel, if_neg hcond]
        exact (ih cs hlen' hcs).trans (List.suffix_cons c _).isInfix

/-- If the non-empty pattern occurs, the replacement text occurs in the
result of the substitution. -/
theorem strReplace_contains (s pat repl : Str) (hpat : pat ≠ []) (h : pat <:+: s) :
    repl <:+: strReplace s pat repl :=
  strReplaceFuel_contains pat repl hpat s.length s (Nat.le_refl _) h

/-- A plain include flag is a non-empty string. -/
theorem headerInclude_ne_nil (pr exclude : Str) :
    str "-I" ++ pjoin pr exclude ≠ [] := by
  intro h
  rw [List.append_eq_nil] at h
  exact absurd h.1 (by decide)

/-- If no plain include flag of the exclusion list occurs in a command, the
rewrite leaves the command unchanged. -/
theorem rewriteCommand_eq_self (pr : Str) :
    ∀ (L : List Str) (s : Str),
      (∀ exclude ∈ L, ¬ (str "-I" ++ pjoin pr exclude) <:+: s) →
      rewriteCommand pr L s = s := by
  intro L
  induction L with
  | nil => intro s _; rfl
  | cons x xs ih =>
    intro s h
    have hx : ¬ (str "-I" ++ pjoin pr x) <:+: s := h x (List.mem_cons_self x xs)
    simp only [rewriteCommand, if_neg hx]
    exact ih s (fun ex hex => h ex (List.mem_cons_of_mem x hex))

/-- The header rewrite only changes the `command` attribute of the entries,
entry by entry. -/
theorem filter_headers_frame (pr : Str) (excl : List Str) :
    ∀ inc : List Entry,
      List.Forall₂
        (fun e2 e1 => e2.directory = e1.directory ∧ e2.file = e1.file ∧ e2.extra = e1.extra)
        (filter_headers pr excl inc) inc := by
  intro inc
  induction inc with
  | nil => simp [filter_headers, REPLACE_WITH_SYSTEM_HEADERS]
  | cons c cs ih =>
    simp only [filter_headers, REPLACE_WITH_SYSTEM_HEADERS, if_true, List.map_cons] at ih ⊢
    exact List.Forall₂.cons ⟨rfl, rfl, rfl⟩ ih

/-- Folding the exhaustive disjunction equals the short-circuiting loop,
for any accumulator. -/
theorem foldl_or_eq (p : Str) :
    ∀ (L : List Str) (b : Bool),
      L.foldl (fun acc exclude => acc || decide (exclude <:+: p)) b =
        (b || anyExcludeMatch L p) := by
  intro L
  induction L with
  | nil => intro b; simp [anyExcludeMatch]
  | cons x xs ih =>
    intro b
    by_cases h : x <:+: p
    · simp [List.foldl_cons, ih, anyExcludeMatch, h]
    · simp [List.foldl_cons, ih, anyExcludeMatch, h]

/-- The exhaustive test and the short-circuiting test agree. -/
theorem anyExcludeMatchExhaustive_eq (L : List Str) (p : Str) :
    anyExcludeMatchExhaustive L p = anyExcludeMatch L p := by
  simpa [anyExcludeMatchExhaustive] using foldl_or_eq p L false

/-- Claim C1 (amended): an entry is placed in the excluded partition iff the
string formed by one path separator plus the path of the entry's file's
directory, expressed relative to the tool's working directory, contains at
least one normalized exclusion fragment as a substring.  The leading
separator only prevents matches that start in the middle of a segment; a
fragment still matches a directory whose name extends the fragment's final
segment (the fragment built from `["lib"]` does match a directory named
`"liblib"`). -/
theorem excluded_iff_fragment_substring (pr : Str) (excl : List Str)
    (l : List Entry) (e : Entry) :
    e ∈ (filter_sources pr excl l).2 ↔
      e ∈ l ∧ ∃ exclude ∈ excl, exclude <:+: pathStr pr e := by
  rw [filter_sources_eq]
  simp [List.mem_filter, anyExcludeMatch_iff]

/-- Claim C1 counterexample: with exclusion configuration `[["lib"]]` and
working directory `/work`, the entry for `/work/liblib/a.cpp` has match
string `/liblib`, in which the fragment `/lib` occurs only as a
partial-segment match, yet the entry is placed in the excluded partition —
refuting "never by a partial-segment match". -/
theorem excluded_partial_segment_counterexample :
    pathStr (str "/work")
        ⟨str "/work/liblib", str "cc -c a.cpp", str "/work/liblib/a.cpp", []⟩ =
      str "/liblib" ∧
    filter_sources (str "/work") (mkExcludes [[str "lib"]])
        [⟨str "/work/liblib", str "cc -c a.cpp", str "/work/liblib/a.cpp", []⟩] =
      ([], [⟨str "/work/liblib", str "cc -c a.cpp", str "/work/liblib/a.cpp", []⟩]) := by
  decide

/-- Claim C2: for every compilation database the partitioner produces two
disjoint sequences whose lengths sum to the input length, every input entry
appears in one of the two outputs, and the two outputs together are a
permutation of the input (no entry duplicated or dropped). -/
theorem partition_complete (pr : Str) (excl : List Str) (l : List Entry) :
    (filter_sources pr excl l).1.length + (filter_sources pr excl l).2.length = l.length ∧
    (∀ e : Entry, e ∈ l ↔ e ∈ (filter_sources pr excl l).1 ∨ e ∈ (filter_sources pr excl l).2) ∧
    (∀ e : Entry, ¬ (e ∈ (filter_sources pr excl l).1 ∧ e ∈ (filter_sources pr excl l).2)) ∧
    List.Perm ((filter_sources pr excl l).1 ++ (filter_sources pr excl l).2) l := by
  rw [filter_sources_eq]
  have hperm : List.Perm
      (l.filter (fun c => ! anyExcludeMatch excl (pathStr pr c)) ++
        l.filter (fun c => anyExcludeMatch excl (pathStr pr c))) l := by
    have h := List.filter_append_perm (fun c => ! anyExcludeMatch excl (pathStr pr c)) l
    simpa [Bool.not_not] using h
  refine ⟨?_, ?_, ?_, hperm⟩
  · have h := hperm.length_eq
    simpa [List.length_append] using h
  · intro e
    constructor
    · intro he
      cases h : anyExcludeMatch excl (pathStr pr e) with
      | false => exact Or.inl (List.mem_filter.mpr ⟨he, by simp [h]⟩)
      | true => exact Or.inr (List.mem_filter.mpr ⟨he, h⟩)
    · rintro (h | h) <;> exact (List.mem_filter.mp h).1
  · rintro e ⟨h1, h2⟩
    have b1 := (List.mem_filter.mp h1).2
    have b2 := (List.mem_filter.mp h2).2
    simp [b2] at b1

/-- Claim C3: the partition is stable — the included output is an
order-preserving selection (sublist) of the input, and so is the excluded
output. -/
theorem partition_order_preserved (pr : Str) (excl : List Str) (l : List Entry) :
    List.Sublist (filter_sources pr excl l).1 l ∧
    List.Sublist (filter_sources pr excl l).2 l := by
  rw [filter_sources_eq]
  exact ⟨List.filter_sublist l, List.filter_sublist l⟩

/-- Claim C4 (amended): if the plain-include flag `-I<path>` of an exclusion
fragment appears verbatim in a command string, then the rewrite step for
that single fragment produces a command containing the system-include flag
`-isystem <path>`.  Both restrictions of the original claim are forced: the
command can still contain `-I<path>` afterwards (the raw substitution can
leave an overlapping occurrence behind), and after the full multi-fragment
stage even `-isystem <path>` can be absent, because a later fragment's
substitution can rewrite the inside of the inserted flag. -/
theorem header_rewrite_inserts_system_include (pr exclude c : Str)
    (h : (str "-I" ++ pjoin pr exclude) <:+: c) :
    (str "-isystem " ++ pjoin pr exclude) <:+: rewriteCommand pr [exclude] c := by
  show (str "-isystem " ++ pjoin pr exclude) <:+:
    (if (str "-I" ++ pjoin pr exclude) <:+: c then
      strReplace c (str "-I" ++ pjoin pr exclude) (str "-isystem " ++ pjoin pr exclude)
    else c)
  rw [if_pos h]
  exact strReplace_contains c _ _ (headerInclude_ne_nil pr exclude) h

/-- Witness for the amended claim C4 at a concrete input. -/
theorem header_rewrite_inserts_system_include_witness :
    (str "-I" ++ pjoin (str "/proj") (str "vendor")) <:+:
        str "cc -I/proj/vendor -c a.cpp" ∧
    (str "-isystem " ++ pjoin (str "/proj") (str "vendor")) <:+:
      rewriteCommand (str "/proj") [str "vendor"] (str "cc -I/proj/vendor -c a.cpp") :=
  ⟨by decide,
   header_rewrite_inserts_system_include (str "/proj") (str "vendor")
     (str "cc -I/proj/vendor -c a.cpp") (by decide)⟩

/-- Claim C4 counterexample, refuting both halves of the stage-level claim.
First, with working directory `/`, exclusion configuration `[["x-"]]` and an
included entry (file `/ok/a.cpp`) whose command `-I/x-I/x-` contains the
plain-include flag `-I/x-` verbatim, the pipeline rewrites the command to
`-isystem /x-I/x-`, which still contains `-I/x-` — refuting "no longer
contains `-I<path>`".  Second, with configuration `[["b-I","c"],["c"]]` and
an included entry whose command `-I/b-I/c` contains the first fragment's
flag `-I/b-I/c` verbatim, the stage produces `-isystem /b-isystem /c` —
the second fragment's substitution destroys the inserted flag, so after the
header-rewrite stage the command does not contain `-isystem /b-I/c`,
refuting "contains the system-include flag" at the stage level for
multi-fragment configurations. -/
theorem header_rewrite_residual_include_counterexample :
    ((str "-I" ++ pjoin (str "/") (str "x-")) <:+: str "-I/x-I/x-" ∧
      runFilter (str "/") (mkExcludes [[str "x-"]])
          [⟨str "/ok", str "-I/x-I/x-", str "/ok/a.cpp", []⟩] =
        ([⟨str "/ok", str "-isystem /x-I/x-", str "/ok/a.cpp", []⟩], []) ∧
      (str "-I" ++ pjoin (str "/") (str "x-")) <:+: str "-isystem /x-I/x-") ∧
    ((str "-I" ++ pjoin (str "/") (str "b-I/c")) <:+: str "-I/b-I/c" ∧
      runFilter (str "/") (mkExcludes [[str "b-I", str "c"], [str "c"]])
          [⟨str "/ok", str "-I/b-I/c", str "/ok/a.cpp", []⟩] =
        ([⟨str "/ok", str "-isystem /b-isystem /c", str "/ok/a.cpp", []⟩], []) ∧
      ¬ (str "-isystem " ++ pjoin (str "/") (str "b-I/c")) <:+:
          str "-isystem /b-isystem /c") := by
  decide

/-- Claim C5: the header-rewrite stage touches only the `command` attribute
of the included partition.  The excluded output of the full run is an
order-preserving selection of the (unmodified) input entries, and every
entry of the included output agrees with the corresponding partitioned
entry on every attribute other than `command`. -/
theorem filter_headers_frame_effect (pr : Str) (excl : List Str) (l : List Entry) :
    List.Sublist (runFilter pr excl l).2 l ∧
    List.Forall₂
      (fun e2 e1 => e2.directory = e1.directory ∧ e2.file = e1.file ∧ e2.extra = e1.extra)
      (runFilter pr excl l).1 (filter_sources pr excl l).1 := by
  constructor
  · have h : (runFilter pr excl l).2 = (filter_sources pr excl l).2 := rfl
    rw [h, filter_sources_eq]
    exact List.filter_sublist l
  · exact filter_headers_frame pr excl (filter_sources pr excl l).1

/-- Claim C6 (amended): the header rewrite applied twice yields the same
command as applied once, provided that after the first rewrite no
plain-include flag of the exclusion list still occurs in the command.  (The
proviso is needed: the original unconditional claim fails, because the raw
substitution can leave the flag present.) -/
theorem header_rewrite_idempotent_of_flag_absent (pr : Str) (excl : List Str)
    (c : Str)
    (h : ∀ exclude ∈ excl,
      ¬ (str "-I" ++ pjoin pr exclude) <:+: rewriteCommand pr excl c) :
    rewriteCommand pr excl (rewriteCommand pr excl c) = rewriteCommand pr excl c :=
  rewriteCommand_eq_self pr excl (rewriteCommand pr excl c) h

/-- Witness for the amended claim C6 at a concrete input. -/
theorem header_rewrite_idempotent_witness :
    (∀ exclude ∈ [str "vendor"],
      ¬ (str "-I" ++ pjoin (str "/proj") exclude) <:+:
        rewriteCommand (str "/proj") [str "vendor"] (str "cc -I/proj/vendor -c a.cpp")) ∧
    rewriteCommand (str "/proj") [str "vendor"]
        (rewriteCommand (str "/proj") [str "vendor"] (str "cc -I/proj/vendor -c a.cpp")) =
      rewriteCommand (str "/proj") [str "vendor"] (str "cc -I/proj/vendor -c a.cpp") :=
  ⟨by decide,
   header_rewrite_idempotent_of_flag_absent (str "/proj") [str "vendor"]
     (str "cc -I/proj/vendor -c a.cpp") (by decide)⟩

/-- Claim C6 counterexample: with working directory `/` and the single
stripped exclusion fragment `x-`, rewriting the command `-I/x-I/x-` once
gives `-isystem /x-I/x-` (the flag `-I/x-` reappears across the replacement
boundary), and rewriting twice gives a different string — the rewrite is not
idempotent in general. -/
theorem header_rewrite_not_idempotent_counterexample :
    rewriteCommand (str "/") [str "x-"]
        (rewriteCommand (str "/") [str "x-"] (str "-I/x-I/x-")) ≠
      rewriteCommand (str "/") [str "x-"] (str "-I/x-I/x-") := by
  decide

/-- Claim C7 (amended): if no exclusion fragment occurs in any entry's match
string, then the excluded output is empty and the included output contains
exactly the input entries in order (the partitioner never reads commands);
every entry's command string is additionally unmodified provided no entry's
command contains the plain-include flag of any exclusion path (the
header-rewrite stage tests command contents, not paths, so without this
proviso a command can still be rewritten). -/
theorem no_match_noop (pr : Str) (excl : List Str) (l : List Entry)
    (h1 : ∀ e ∈ l, anyExcludeMatch excl (pathStr pr e) = false) :
    filter_sources pr excl l = (l, []) ∧
    (runFilter pr excl l).2 = [] ∧
    ((∀ e ∈ l, ∀ exclude ∈ stripExcludes excl,
        ¬ (str "-I" ++ pjoin pr exclude) <:+: e.command) →
      runFilter pr excl l = (l, [])) := by
  have hs : filter_sources pr excl l = (l, []) := by
    rw [filter_sources_eq]
    refine Prod.ext ?_ ?_
    · exact List.filter_eq_self.mpr (fun e he => by simp [h1 e he])
    · exact List.filter_eq_nil_iff.mpr (fun e he => by simp [h1 e he])
  refine ⟨hs, ?_, ?_⟩
  · show (filter_sources pr excl l).2 = []
    rw [hs]
  · intro h2
    have hmap : filter_headers pr excl l = l := by
      simp only [filter_headers, REPLACE_WITH_SYSTEM_HEADERS, if_true]
      have hid : ∀ e ∈ l,
          ({ e with command := rewriteCommand pr (stripExcludes excl) e.command } : Entry) = e := by
        intro e he
        have h := rewriteCommand_eq_self pr (stripExcludes excl) e.command (h2 e he)
        rw [h]
      calc l.map (fun e => { e with command := rewriteCommand pr (stripExcludes excl) e.command })
          = l.map id := List.map_congr_left hid
        _ = l := List.map_id l
    show (filter_headers pr excl (filter_sources pr excl l).1, (filter_sources pr excl l).2) = (l, [])
    rw [hs]
    exact Prod.ext hmap rfl

/-- Witness for the amended claim C7 at a concrete input. -/
theorem no_match_noop_witness :
    (∀ e ∈ [(⟨str "/proj/src", str "cc -c a.cpp", str "/proj/src/a.cpp", []⟩ : Entry)],
      anyExcludeMatch (mkExcludes [[str "vendor"]]) (pathStr (str "/proj") e) = false) ∧
    (filter_sources (str "/proj") (mkExcludes [[str "vendor"]])
        [⟨str "/proj/src", str "cc -c a.cpp", str "/proj/src/a.cpp", []⟩] =
      ([⟨str "/proj/src", str "cc -c a.cpp", str "/proj/src/a.cpp", []⟩], []) ∧
     (runFilter (str "/proj") (mkExcludes [[str "vendor"]])
        [⟨str "/proj/src", str "cc -c a.cpp", str "/proj/src/a.cpp", []⟩]).2 = [] ∧
     ((∀ e ∈ [(⟨str "/proj/src", str "cc -c a.cpp", str "/proj/src/a.cpp", []⟩ : Entry)],
        ∀ exclude ∈ stripExcludes (mkExcludes [[str "vendor"]]),
          ¬ (str "-I" ++ pjoin (str "/proj") exclude) <:+: e.command) →
       runFilter (str "/proj") (mkExcludes [[str "vendor"]])
          [⟨str "/proj/src", str "cc -c a.cpp", str "/proj/src/a.cpp", []⟩] =
        ([⟨str "/proj/src", str "cc -c a.cpp", str "/proj/src/a.cpp", []⟩], []))) :=
  ⟨by decide,
   no_match_noop (str "/proj") (mkExcludes [[str "vendor"]])
     [⟨str "/proj/src", str "cc -c a.cpp", str "/proj/src/a.cpp", []⟩]
     (by decide)⟩

/-- Claim C7 counterexample: with exclusion configuration `[["vendor"]]` and
working directory `/proj`, the single entry (file `/proj/src/a.cpp`) matches
no exclusion fragment in its path, yet the pipeline's included output is not
the input verbatim: the command `-I/proj/vendor` is rewritten by the
header-rewrite stage — refuting "every entry's command string unmodified". -/
theorem no_match_command_rewritten_counterexample :
    anyExcludeMatch (mkExcludes [[str "vendor"]])
        (pathStr (str "/proj")
          ⟨str "/proj/src", str "-I/proj/vendor", str "/proj/src/a.cpp", []⟩) = false ∧
    (runFilter (str "/proj") (mkExcludes [[str "vendor"]])
        [⟨str "/proj/src", str "-I/proj/vendor", str "/proj/src/a.cpp", []⟩]).1 ≠
      [⟨str "/proj/src", str "-I/proj/vendor", str "/proj/src/a.cpp", []⟩] := by
  decide

/-- Claim C8: when an input file (the exclusion configuration or the
compilation database) does not exist, the loaders terminate the run before
any output is produced: with the strict flag (the code's `TERMINATE_OK`,
fixed to false) the process terminates with non-zero status and a
descriptive message, and with the lenient flag it reports the problem and
exits with status 0. -/
theorem missing_input_terminates (pr pb pc : Str) (db : Option (List Entry))
    (cfg : List (List Str)) :
    TERMINATE_OK = false ∧
    (run_tool false pr pb pc none db =
        Except.error (ExitKind.sysExitMsg
          (str "** FATAL - file to list excluded directories is missing:\n" ++ pc)) ∧
      ExitKind.status (ExitKind.sysExitMsg
        (str "** FATAL - file to list excluded directories is missing:\n" ++ pc)) ≠ 0) ∧
    (run_tool true pr pb pc none db =
        Except.error (ExitKind.exitZero
          (str "ERROR - Directory exclusion configuration is missing, skipping further processing")) ∧
      ExitKind.status (ExitKind.exitZero
        (str "ERROR - Directory exclusion configuration is missing, skipping further processing")) = 0) ∧
    (run_tool false pr pb pc (some cfg) none =
        Except.error (ExitKind.sysExitMsg
          (str "** FATAL - file to list compile commands is missing:\n" ++
            pjoin pb (str "compile_commands.json"))) ∧
      ExitKind.status (ExitKind.sysExitMsg
        (str "** FATAL - file to list compile commands is missing:\n" ++
          pjoin pb (str "compile_commands.json"))) ≠ 0) ∧
    (run_tool true pr pb pc (some cfg) none =
        Except.error (ExitKind.exitZero
          (str "ERROR - CMake-generated file \"compile_commands.json\" is missing, skipping further processing")) ∧
      ExitKind.status (ExitKind.exitZero
        (str "ERROR - CMake-generated file \"compile_commands.json\" is missing, skipping further processing")) = 0) :=
  ⟨rfl,
   ⟨rfl, by simp [ExitKind.status]⟩,
   ⟨rfl, rfl⟩,
   ⟨rfl, by simp [ExitKind.status]⟩,
   ⟨rfl, rfl⟩⟩

/-- Claim C9: the short-circuiting partitioner (stop at the first matching
exclusion fragment) produces exactly the same included/excluded partition as
the variant that tests every exclusion fragment for each entry. -/
theorem short_circuit_eq_exhaustive (pr : Str) (excl : List Str) (l : List Entry) :
    filter_sources pr excl l = filter_sources_exhaustive pr excl l := by
  induction l with
  | nil => rfl
  | cons c cs ih =>
    simp only [filter_sources, filter_sources_exhaustive, ih, anyExcludeMatchExhaustive_eq]

/-- Claim C10: the header rewrite is a raw substring substitution: with
exclusion path `/proj/vendor`, an included entry (file `/proj/src/a.cpp`,
directory not excluded) whose command holds `-I/proj/vendor2` — a distinct,
non-excluded directory of which the exclusion path is a proper prefix — is
still rewritten to `-isystem /proj/vendor2`. -/
theorem raw_substring_rewrite_prefix_capture :
    ¬ (str "/vendor") <:+:
      pathStr (str "/proj")
        ⟨str "/proj/src", str "-I/proj/vendor2", str "/proj/src/a.cpp", []⟩ ∧
    runFilter (str "/proj") (mkExcludes [[str "vendor"]])
        [⟨str "/proj/src", str "-I/proj/vendor2", str "/proj/src/a.cpp", []⟩] =
      ([⟨str "/proj/src", str "-isystem /proj/vendor2", str "/proj/src/a.cpp", []⟩], []) := by
  decide

end ClangTidyFilter
